import Mathlib

/-!
# Verification of the realtime arbitrage bot core

A shallow embedding of the sizing / balance / detection / subscription logic of
the `rarb` realtime arbitrage bot (files `src/rarb/bot.py` and
`src/rarb/scanner/realtime_scanner.py`), together with theorems settling the
specification's claims about it.

Python `Decimal` values are modelled as exact rationals (`ℚ`).
`Decimal.quantize(Decimal("1"), rounding="ROUND_DOWN")` rounds to an integer
toward zero and `ROUND_UP` rounds away from zero; both are modelled exactly.
`Decimal` division is modelled as exact rational division (the 28-significant-
digit context rounding of Python `Decimal` division cannot move any of the
quantized results for the short decimal prices and sizes this code handles).
-/

namespace Rarb

/-- `Decimal.quantize(Decimal("1"), rounding="ROUND_DOWN")`: round a decimal to
an integer toward zero. -/
def quantizeDown (x : ℚ) : ℚ :=
  if 0 ≤ x then (⌊x⌋ : ℚ) else (⌈x⌉ : ℚ)

/-- `Decimal.quantize(Decimal("1"), rounding="ROUND_UP")`: round a decimal to
an integer away from zero. -/
def quantizeUp (x : ℚ) : ℚ :=
  if 0 ≤ x then (⌈x⌉ : ℚ) else (⌊x⌋ : ℚ)

/-! ## Executor glue: `RealtimeArbitrageBot._on_arbitrage` (bot.py 342-479) -/

/-- The payload of `ArbitrageAlert` (realtime_scanner.py lines 67-78) that the
executor glue `RealtimeArbitrageBot._on_arbitrage` reads: the two best asks,
the combined cost, the profit, and the ask-side liquidity carried for each
side.  The `market` and `timestamp` fields play no role in sizing and are
omitted. -/
structure AlertQ where
  yes_ask : ℚ
  no_ask : ℚ
  combined_cost : ℚ
  profit_pct : ℚ
  yes_size_available : ℚ
  no_size_available : ℚ
deriving DecidableEq

/-- `LIQUIDITY_SAFETY_MARGIN = Decimal("0.50")` (bot.py line 358). -/
def LIQUIDITY_SAFETY_MARGIN : ℚ := 1/2

/-- `min_order_value = Decimal("1.10")` (bot.py line 365). -/
def minOrderValue : ℚ := 11/10

/-- `raw_available = min(alert.yes_size_available, alert.no_size_available)`
(bot.py line 360). -/
def rawAvailable (a : AlertQ) : ℚ :=
  min a.yes_size_available a.no_size_available

/-- `available_size = (raw_available * LIQUIDITY_SAFETY_MARGIN).quantize(1, ROUND_DOWN)`
(bot.py line 361). -/
def availableSize (a : AlertQ) : ℚ :=
  quantizeDown (rawAvailable a * LIQUIDITY_SAFETY_MARGIN)

/-- `min_required_size = max(min_shares_for_yes, min_shares_for_no, 5)` where
`min_shares_for_X = (min_order_value / X_ask).quantize(1, ROUND_UP)`
(bot.py lines 366-368). -/
def minRequiredSize (a : AlertQ) : ℚ :=
  max (max (quantizeUp (minOrderValue / a.yes_ask)) (quantizeUp (minOrderValue / a.no_ask))) 5

/-- The decision `_on_arbitrage` reaches for one alert.
`nearMissLiquidity m` models the `available_size < min_required_size` early
return, which writes exactly one near-miss record with reason
`"insufficient_liquidity"` and `min_required = m` (via `_save_near_miss_alert`,
bot.py lines 300-319 and 382).
`nearMissBalance req have` models the insufficient-balance early return, which
writes exactly one near-miss record with reason `"insufficient_balance"`
carrying the required cost and the current balance (via
`_save_insufficient_balance_alert`, bot.py lines 321-340 and 420).
`execute ts rc` models the path that reserves `rc` from the cached balance and
invokes `self.executor.execute` with `max_trade_size = ts` (bot.py 423-449). -/
inductive ExecDecision
  | nearMissLiquidity (minRequired : ℚ)
  | nearMissBalance (required available : ℚ)
  | execute (tradeSize requiredCost : ℚ)
deriving DecidableEq

/-- The sizing / balance-feasibility / reservation pipeline of
`RealtimeArbitrageBot._on_arbitrage` (bot.py lines 358-445), as a pure function
of the configured position cap (`max_position`), the cached balance read under
the balance lock, and the alert.  Returns the decision together with the
resulting `_cached_balance`: on the execute path the expected cost has just
been deducted (line 445); on both near-miss paths the cache is untouched.  Per
the claims' serial-execution-lock assumption, the balance read at line 395 and
the value deducted from at line 445 coincide. -/
def onArbitrage (maxPosition cachedBalance : ℚ) (a : AlertQ) : ExecDecision × ℚ :=
  if availableSize a < minRequiredSize a then
    (.nearMissLiquidity (minRequiredSize a), cachedBalance)
  else
    let tradeSize := min (availableSize a) maxPosition
    let requiredCost := tradeSize * a.combined_cost
    if cachedBalance < requiredCost then
      if minRequiredSize a * a.combined_cost ≤ cachedBalance then
        let maxAffordable := cachedBalance / a.combined_cost
        let tradeSize2 := min tradeSize (quantizeDown maxAffordable)
        let requiredCost2 := tradeSize2 * a.combined_cost
        (.execute tradeSize2 requiredCost2, cachedBalance - requiredCost2)
      else
        (.nearMissBalance requiredCost cachedBalance, cachedBalance)
    else
      (.execute tradeSize requiredCost, cachedBalance - requiredCost)

/-! ## Post-execution balance reconciliation (bot.py 446-479, 615-653) -/

/-- Modelled from the spec: the outcome classification of
`OrderExecutor.execute` lives in module `rarb.executor.executor`, which is not
under `src/`; per spec section 4.4, both orders filled is FILLED (here
`filled`), exactly one filled is PARTIAL (here `halfFilled`), neither filled is
FAILED (here `failedBoth`). -/
inductive ExecStatus
  | filled
  | halfFilled
  | failedBoth
deriving DecidableEq

/-- How one call to `self.executor.execute` terminates, as seen by the
`try/except` in `_on_arbitrage` (bot.py 446-479): either it returns a result
with a status, or it raises. -/
inductive ExecOutcome
  | finished (s : ExecStatus)
  | exceptionRaised
deriving DecidableEq

/-- `RealtimeArbitrageBot._refresh_balance` (bot.py 615-653) as a function of
the cached balance and the on-chain query's result: a successful query
unconditionally replaces the cached value (line 625); a failed query (the
`except` at line 651) logs and retains the stale cached value. -/
def refreshBalance (cachedBalance : ℚ) (chainBalance : Option ℚ) : ℚ :=
  match chainBalance with
  | some b => b
  | none => cachedBalance

/-- The post-execution balance reconciliation of `_on_arbitrage`
(bot.py 446-479): after the reserved cost has been deducted, a FILLED result
leaves the cache as is (the reservation sticks); any other result (line 464)
and any exception (line 473) issue `_refresh_balance`, never an increment of
the cache by the reserved amount. -/
def reconcileAfterExecution (deductedBalance : ℚ) (out : ExecOutcome)
    (chainBalance : Option ℚ) : ℚ :=
  match out with
  | .finished .filled => deductedBalance
  | .finished .halfFilled => refreshBalance deductedBalance chainBalance
  | .finished .failedBoth => refreshBalance deductedBalance chainBalance
  | .exceptionRaised => refreshBalance deductedBalance chainBalance

/-! ## Detector: `RealtimeScanner` price state and `_check_arbitrage`
(realtime_scanner.py 30-64, 307-466) -/

/-- `MarketPrices` (realtime_scanner.py 30-40): per-market top-of-book state
for the YES and NO tokens; every field is explicitly nullable. -/
structure PricesQ where
  yes_best_bid : Option ℚ
  yes_best_ask : Option ℚ
  no_best_bid : Option ℚ
  no_best_ask : Option ℚ
  yes_best_ask_size : Option ℚ
  no_best_ask_size : Option ℚ
deriving DecidableEq

/-- `MarketPrices.combined_ask` (realtime_scanner.py 42-47): the sum of the two
best asks, `None` if either side is missing. -/
def combinedAsk (p : PricesQ) : Option ℚ :=
  match p.yes_best_ask, p.no_best_ask with
  | some y, some n => some (y + n)
  | _, _ => none

/-- `MarketPrices.arbitrage_profit` (realtime_scanner.py 49-55):
`1 - combined_ask`, `None` if the combined ask is missing. -/
def arbitrageProfit (p : PricesQ) : Option ℚ :=
  match combinedAsk p with
  | some c => some (1 - c)
  | none => none

/-- `MarketPrices.has_arbitrage` (realtime_scanner.py 57-64): true when the
profit exists and strictly exceeds the configured threshold. -/
def hasArbitrage (threshold : ℚ) (p : PricesQ) : Bool :=
  match arbitrageProfit p with
  | some pr => decide (threshold < pr)
  | none => false

/-- The observable side effects of one `_check_arbitrage` call:
`nearMissTrace` is the near-miss debug trace (line 316), `durationWrite d`
is the scheduled `_update_alert_duration` write-back of `d` seconds on
lifetime close (line 340), `callbackFire` is the `_on_arbitrage` callback
invocation (line 445), and `alertInsert fs` is the persisted alert record with
`first_seen = fs` and duration unset (line 453). -/
inductive DetEvent
  | nearMissTrace
  | durationWrite (durationSecs : ℚ)
  | callbackFire
  | alertInsert (firstSeen : ℚ)
deriving DecidableEq

/-- The near-miss diagnostics block of `_check_arbitrage`
(realtime_scanner.py 310-326): a debug trace fires when the profit is positive,
below the threshold, and within 0.005 of it.  (The `_best_near_miss` running
maximum it also updates is a log-only statistic and carries no event.) -/
def nearMissEvents (threshold : ℚ) (p : PricesQ) : List DetEvent :=
  match arbitrageProfit p with
  | some pr =>
    if 0 < pr then
      if pr < threshold then
        if threshold - 1/200 < pr then [.nearMissTrace] else []
      else []
    else []
  | none => []

/-- `RealtimeScanner._check_arbitrage` for one market
(realtime_scanner.py 307-466): given the threshold, whether the
resolution-date window check passes (`daysOk`; the code skips it when the
market has no end date), the current time, the market's entry in
`_active_opportunities` (`active`, the open lifetime's `first_seen`), and the
market's prices, it returns the new `_active_opportunities` entry and the
emitted events.  The ladder-fallback size enrichment (lines 381-407) only
fills the alert's liquidity fields and touches neither the lifetime map nor
which events fire; it is not modelled here.  Note that the persisted-alert
insert (line 453) sits on the main firing path, after the dedup-free callback,
and runs on every firing update. -/
def checkArbitrage (threshold : ℚ) (daysOk : Bool) (now : ℚ) (active : Option ℚ)
    (p : PricesQ) : Option ℚ × List DetEvent :=
  let nm := nearMissEvents threshold p
  if hasArbitrage threshold p = false then
    match active with
    | some firstSeen => (none, nm ++ [.durationWrite (now - firstSeen)])
    | none => (active, nm)
  else if daysOk = false then
    (active, nm)
  else
    match combinedAsk p, arbitrageProfit p with
    | some _, some _ =>
      match active with
      | none => (some now, nm ++ [.callbackFire, .alertInsert now])
      | some firstSeen => (some firstSeen, nm ++ [.callbackFire, .alertInsert firstSeen])
    | _, _ => (active, nm)

/-- Number of `durationWrite` events (alert duration write-backs) in a list. -/
def durCount (es : List DetEvent) : ℕ :=
  es.countP fun e => match e with | .durationWrite _ => true | _ => false

/-- Number of `alertInsert` events (persisted alert records) in a list. -/
def alertCount (es : List DetEvent) : ℕ :=
  es.countP fun e => match e with | .alertInsert _ => true | _ => false

/-! ## Price store: `RealtimeScanner._update_prices` (realtime_scanner.py 272-305) -/

/-- The slice of `Market` that `_update_prices` consults: the market id and the
two token ids. -/
structure MarketQ where
  id : String
  yesTokenId : String
  noTokenId : String
deriving DecidableEq

/-- The scanner's lookup tables (realtime_scanner.py 134-136):
`_token_to_market`, `_markets` and `_market_prices`, each modelled as a map
returning `none` for absent keys (`dict.get`). -/
structure ScannerState where
  tokenToMarket : String → Option String
  markets : String → Option MarketQ
  marketPrices : String → Option PricesQ

/-- `RealtimeScanner._update_prices` (realtime_scanner.py 272-305), the store
mutation for one token's update: look the token up, overwrite the matching
side's best bid and best ask unconditionally, but overwrite the ask size only
when the update carries one (`if best_ask_size is not None`).  `if not
market_id` treats the empty string like a missing key.  The tail call into
`_check_arbitrage` (line 305) is modelled separately by `checkArbitrage`. -/
def updatePrices (s : ScannerState) (tokenId : String)
    (bestBid bestAsk bestAskSize : Option ℚ) : ScannerState :=
  match s.tokenToMarket tokenId with
  | none => s
  | some marketId =>
    if marketId = "" then s
    else
      match s.markets marketId with
      | none => s
      | some market =>
        match s.marketPrices marketId with
        | none => s
        | some prices =>
          let prices' :=
            if tokenId = market.yesTokenId then
              { prices with
                yes_best_bid := bestBid
                yes_best_ask := bestAsk
                yes_best_ask_size :=
                  match bestAskSize with
                  | some sz => some sz
                  | none => prices.yes_best_ask_size }
            else if tokenId = market.noTokenId then
              { prices with
                no_best_bid := bestBid
                no_best_ask := bestAsk
                no_best_ask_size :=
                  match bestAskSize with
                  | some sz => some sz
                  | none => prices.no_best_ask_size }
            else prices
          { s with marketPrices := fun k => if k = marketId then some prices' else s.marketPrices k }

/-! ## Subscription sharding: `RealtimeScanner.subscribe_to_markets`
(realtime_scanner.py 187-209) and the loader cap (line 119) -/

/-- `MAX_ASSETS_PER_WS = 500` (realtime_scanner.py line 25). -/
def MAX_ASSETS_PER_WS : ℕ := 500

/-- Connection `i`'s slice of the ordered token list:
`token_ids[i*500 : (i+1)*500]` (realtime_scanner.py 204-206). -/
def wsShard (tokenIds : List String) (i : ℕ) : List String :=
  (tokenIds.drop (i * MAX_ASSETS_PER_WS)).take MAX_ASSETS_PER_WS

/-- `subscribe_to_markets`'s distribution loop (realtime_scanner.py 203-209):
for each of the `numConnections` clients, take its slice and issue a
subscription only when the slice is non-empty (`if batch:`).  Returns the
issued subscriptions as (connection index, batch) pairs. -/
def subscribeToMarkets (tokenIds : List String) (numConnections : ℕ) :
    List (ℕ × List String) :=
  (List.range numConnections).filterMap fun i =>
    let batch := wsShard tokenIds i
    if batch.isEmpty then none else some (i, batch)

/-- The ordered token list `subscribe_to_markets` builds
(realtime_scanner.py 194-197): the YES then NO token of each loaded market,
in market order. -/
def collectTokenIds (markets : List MarketQ) : List String :=
  markets.flatMap fun m => [m.yesTokenId, m.noTokenId]

/-- The loader's market cap (realtime_scanner.py line 119 and 165):
`max_markets = (MAX_ASSETS_PER_WS // 2) * num_connections`. -/
def maxMarkets (numConnections : ℕ) : ℕ :=
  (MAX_ASSETS_PER_WS / 2) * numConnections

/-! ## Helper lemmas -/

lemma quantizeDown_le {x : ℚ} (hx : 0 ≤ x) : quantizeDown x ≤ x := by
  rw [quantizeDown, if_pos hx]
  exact Int.floor_le x

lemma le_quantizeDown {z : ℤ} {x : ℚ} (hx : 0 ≤ x) (h : (z : ℚ) ≤ x) :
    (z : ℚ) ≤ quantizeDown x := by
  rw [quantizeDown, if_pos hx]
  exact_mod_cast Int.le_floor.mpr h

lemma quantizeUp_isInt (x : ℚ) : ∃ z : ℤ, quantizeUp x = (z : ℚ) := by
  rw [quantizeUp]
  split
  · exact ⟨⌈x⌉, rfl⟩
  · exact ⟨⌊x⌋, rfl⟩

lemma minRequiredSize_ge_five (a : AlertQ) : (5:ℚ) ≤ minRequiredSize a :=
  le_max_right _ _

lemma minRequiredSize_pos (a : AlertQ) : (0:ℚ) < minRequiredSize a :=
  lt_of_lt_of_le (by norm_num) (minRequiredSize_ge_five a)

lemma minRequiredSize_isInt (a : AlertQ) : ∃ z : ℤ, minRequiredSize a = (z : ℚ) := by
  obtain ⟨z1, h1⟩ := quantizeUp_isInt (minOrderValue / a.yes_ask)
  obtain ⟨z2, h2⟩ := quantizeUp_isInt (minOrderValue / a.no_ask)
  refine ⟨max (max z1 z2) 5, ?_⟩
  rw [minRequiredSize, h1, h2]
  push_cast
  rfl

/-! ## Claims about the executor glue -/

/-- C2: under the serial execution-lock assumption (the feasibility check, the
optional shrink, and the deduction see one consistent `cached_balance`), every
reservation that passed its own feasibility check leaves the cached balance
nonnegative. -/
theorem onArbitrage_cached_balance_nonneg (maxPosition cachedBalance : ℚ) (a : AlertQ)
    (hc : 0 < a.combined_cost) (ts rc nb : ℚ)
    (h : onArbitrage maxPosition cachedBalance a = (.execute ts rc, nb)) :
    0 ≤ nb := by
  simp only [onArbitrage] at h
  split at h
  · simp at h
  · split at h
    · split at h
      · next hres =>
        simp only [Prod.mk.injEq, ExecDecision.execute.injEq] at h
        obtain ⟨⟨_, _⟩, hnb⟩ := h
        subst hnb
        have hcb : 0 < cachedBalance :=
          lt_of_lt_of_le (mul_pos (minRequiredSize_pos a) hc) hres
        have hdiv0 : 0 ≤ cachedBalance / a.combined_cost := le_of_lt (div_pos hcb hc)
        have hmin : min (min (availableSize a) maxPosition)
            (quantizeDown (cachedBalance / a.combined_cost)) ≤
            cachedBalance / a.combined_cost :=
          le_trans (min_le_right _ _) (quantizeDown_le hdiv0)
        have hle : min (min (availableSize a) maxPosition)
            (quantizeDown (cachedBalance / a.combined_cost)) * a.combined_cost ≤
            cachedBalance := by
          have hmul := mul_le_mul_of_nonneg_right hmin (le_of_lt hc)
          rwa [div_mul_cancel₀ cachedBalance (ne_of_gt hc)] at hmul
        exact sub_nonneg.mpr hle
      · simp at h
    · next hge =>
      simp only [Prod.mk.injEq, ExecDecision.execute.injEq] at h
      obtain ⟨⟨_, _⟩, hnb⟩ := h
      subst hnb
      exact sub_nonneg.mpr (not_lt.mp hge)

/-- C2 witness: at position cap 100, cached balance 20 and an alert with both
asks 0.25 and both sizes 1000, the reservation passes after a shrink and the
resulting balance is 0 ≥ 0. -/
theorem onArbitrage_cached_balance_nonneg_witness :
    (0:ℚ) < (1/2 : ℚ) ∧ (0:ℚ) ≤ (0:ℚ) :=
  ⟨by norm_num,
    onArbitrage_cached_balance_nonneg 100 20
      { yes_ask := 1/4, no_ask := 1/4, combined_cost := 1/2, profit_pct := 1/2,
        yes_size_available := 1000, no_size_available := 1000 }
      (by norm_num) 40 20 0 (by
        have h1 : ⌈(22:ℚ)/5⌉ = 5 := by norm_num [Int.ceil_eq_iff]
        norm_num [onArbitrage, availableSize, minRequiredSize, rawAvailable,
          quantizeDown, quantizeUp, LIQUIDITY_SAFETY_MARGIN, minOrderValue, h1])⟩

/-- C5: the liquidity gate.  `available` is the floor of half the minimum
carried size, `min_shares` is the max of the two per-side $1.10 minimums and
5, and the run aborts with exactly one `insufficient_liquidity` near-miss
record carrying `min_required = min_shares` if and only if
`available < min_shares`. -/
theorem onArbitrage_liquidity_gate (maxPosition cachedBalance : ℚ) (a : AlertQ)
    (hy : 0 < a.yes_ask) (hn : 0 < a.no_ask) :
    availableSize a = quantizeDown (min a.yes_size_available a.no_size_available * (1/2))
    ∧ minRequiredSize a =
        max (max (quantizeUp ((11/10) / a.yes_ask)) (quantizeUp ((11/10) / a.no_ask))) 5
    ∧ ((∃ m b, onArbitrage maxPosition cachedBalance a = (.nearMissLiquidity m, b)) ↔
        availableSize a < minRequiredSize a)
    ∧ (availableSize a < minRequiredSize a →
        onArbitrage maxPosition cachedBalance a =
          (.nearMissLiquidity (minRequiredSize a), cachedBalance)) := by
  refine ⟨rfl, rfl, ⟨?_, ?_⟩, ?_⟩
  · rintro ⟨m, b, hmb⟩
    by_contra hlt
    simp only [onArbitrage, if_neg hlt] at hmb
    split at hmb
    · split at hmb <;> simp at hmb
    · simp at hmb
  · intro hlt
    exact ⟨minRequiredSize a, cachedBalance, by simp only [onArbitrage, if_pos hlt]⟩
  · intro hlt
    simp only [onArbitrage, if_pos hlt]

/-- C5 witness: at asks 0.40/0.55 and both sizes 3 (spec scenario 2),
`available = 1 < min_shares` and the run aborts with the
`insufficient_liquidity` near-miss carrying `min_required = min_shares`. -/
theorem onArbitrage_liquidity_gate_witness :
    (0:ℚ) < (2/5 : ℚ) ∧
    (availableSize
        { yes_ask := 2/5, no_ask := 11/20, combined_cost := 19/20, profit_pct := 1/20,
          yes_size_available := 3, no_size_available := 3 } <
      minRequiredSize
        { yes_ask := 2/5, no_ask := 11/20, combined_cost := 19/20, profit_pct := 1/20,
          yes_size_available := 3, no_size_available := 3 } →
      onArbitrage 100 50
        { yes_ask := 2/5, no_ask := 11/20, combined_cost := 19/20, profit_pct := 1/20,
          yes_size_available := 3, no_size_available := 3 } =
        (.nearMissLiquidity
          (minRequiredSize
            { yes_ask := 2/5, no_ask := 11/20, combined_cost := 19/20, profit_pct := 1/20,
              yes_size_available := 3, no_size_available := 3 }), 50)) :=
  ⟨by norm_num,
    (onArbitrage_liquidity_gate 100 50
      { yes_ask := 2/5, no_ask := 11/20, combined_cost := 19/20, profit_pct := 1/20,
        yes_size_available := 3, no_size_available := 3 }
      (by norm_num) (by norm_num)).2.2.2⟩

/-- C6: balance feasibility.  When the required cost exceeds the cached
balance: if the balance still covers `min_shares` worth, the trade size is
shrunk to `floor(cached_balance / combined_ask)` and execution proceeds with
the recomputed cost deducted; otherwise the run aborts with one
`insufficient_balance` near-miss record and the cached balance untouched. -/
theorem onArbitrage_balance_feasibility (maxPosition cachedBalance : ℚ) (a : AlertQ)
    (hc : 0 < a.combined_cost)
    (hgate : ¬ availableSize a < minRequiredSize a)
    (hlow : cachedBalance < min (availableSize a) maxPosition * a.combined_cost) :
    (minRequiredSize a * a.combined_cost ≤ cachedBalance →
      onArbitrage maxPosition cachedBalance a =
        (.execute (quantizeDown (cachedBalance / a.combined_cost))
            (quantizeDown (cachedBalance / a.combined_cost) * a.combined_cost),
          cachedBalance - quantizeDown (cachedBalance / a.combined_cost) * a.combined_cost))
    ∧ (cachedBalance < minRequiredSize a * a.combined_cost →
      onArbitrage maxPosition cachedBalance a =
        (.nearMissBalance (min (availableSize a) maxPosition * a.combined_cost) cachedBalance,
          cachedBalance)) := by
  constructor
  · intro hres
    have hcb : 0 < cachedBalance :=
      lt_of_lt_of_le (mul_pos (minRequiredSize_pos a) hc) hres
    have hdiv0 : 0 ≤ cachedBalance / a.combined_cost := le_of_lt (div_pos hcb hc)
    have hflt : quantizeDown (cachedBalance / a.combined_cost) <
        min (availableSize a) maxPosition := by
      refine lt_of_le_of_lt (quantizeDown_le hdiv0) ?_
      rw [div_lt_iff₀ hc]
      exact hlow
    have hmin : min (min (availableSize a) maxPosition)
        (quantizeDown (cachedBalance / a.combined_cost)) =
        quantizeDown (cachedBalance / a.combined_cost) :=
      min_eq_right (le_of_lt hflt)
    simp only [onArbitrage, if_neg hgate, if_pos hlow, if_pos hres, hmin]
  · intro habort
    simp only [onArbitrage, if_neg hgate, if_pos hlow, if_neg (not_le.mpr habort)]

/-- C6 witness: cap 100, balance 20, asks 0.25/0.25 and sizes 1000: the
required cost 50 exceeds 20, the minimum-trade cost 2.50 does not, and the
size shrinks to floor(20 / 0.50) = 40 costing exactly 20. -/
theorem onArbitrage_balance_feasibility_witness :
    (0:ℚ) < (1/2 : ℚ)
    ∧ ¬ availableSize
          { yes_ask := 1/4, no_ask := 1/4, combined_cost := 1/2, profit_pct := 1/2,
            yes_size_available := 1000, no_size_available := 1000 } <
        minRequiredSize
          { yes_ask := 1/4, no_ask := 1/4, combined_cost := 1/2, profit_pct := 1/2,
            yes_size_available := 1000, no_size_available := 1000 }
    ∧ (minRequiredSize
          { yes_ask := 1/4, no_ask := 1/4, combined_cost := 1/2, profit_pct := 1/2,
            yes_size_available := 1000, no_size_available := 1000 } * (1/2) ≤ 20 →
        onArbitrage 100 20
          { yes_ask := 1/4, no_ask := 1/4, combined_cost := 1/2, profit_pct := 1/2,
            yes_size_available := 1000, no_size_available := 1000 } =
          (.execute (quantizeDown ((20:ℚ) / (1/2)))
              (quantizeDown ((20:ℚ) / (1/2)) * (1/2)),
            20 - quantizeDown ((20:ℚ) / (1/2)) * (1/2))) := by
  have h1 : ⌈(22:ℚ)/5⌉ = 5 := by norm_num [Int.ceil_eq_iff]
  refine ⟨by norm_num, ?_, ?_⟩
  · norm_num [availableSize, minRequiredSize, rawAvailable, quantizeDown, quantizeUp,
      LIQUIDITY_SAFETY_MARGIN, minOrderValue, h1]
  · exact (onArbitrage_balance_feasibility 100 20
      { yes_ask := 1/4, no_ask := 1/4, combined_cost := 1/2, profit_pct := 1/2,
        yes_size_available := 1000, no_size_available := 1000 }
      (by norm_num)
      (by norm_num [availableSize, minRequiredSize, rawAvailable, quantizeDown, quantizeUp,
        LIQUIDITY_SAFETY_MARGIN, minOrderValue, h1])
      (by norm_num [availableSize, minRequiredSize, rawAvailable, quantizeDown, quantizeUp,
        LIQUIDITY_SAFETY_MARGIN, minOrderValue, h1])).1

/-- C1 (amended): for an opportunity that passes the liquidity gate, the trade
size before the balance-feasibility step is `min(available, max_position)`:
the configured position cap is applied directly as a share count (capping the
position's $1-per-share resolution payout), not divided by the combined ask. -/
theorem onArbitrage_trade_size_cap (maxPosition cachedBalance : ℚ) (a : AlertQ)
    (hgate : ¬ availableSize a < minRequiredSize a)
    (hbal : min (availableSize a) maxPosition * a.combined_cost ≤ cachedBalance) :
    onArbitrage maxPosition cachedBalance a =
      (.execute (min (availableSize a) maxPosition)
          (min (availableSize a) maxPosition * a.combined_cost),
        cachedBalance - min (availableSize a) maxPosition * a.combined_cost) := by
  simp only [onArbitrage, if_neg hgate, if_neg (not_lt.mpr hbal)]

/-- C1 witness: cap 100, balance 2000, asks 0.25/0.25, sizes 1000: the gate
passes, the balance suffices, and the bot executes 100 shares at cost 50. -/
theorem onArbitrage_trade_size_cap_witness :
    ¬ availableSize
        { yes_ask := 1/4, no_ask := 1/4, combined_cost := 1/2, profit_pct := 1/2,
          yes_size_available := 1000, no_size_available := 1000 } <
      minRequiredSize
        { yes_ask := 1/4, no_ask := 1/4, combined_cost := 1/2, profit_pct := 1/2,
          yes_size_available := 1000, no_size_available := 1000 }
    ∧ onArbitrage 100 2000
        { yes_ask := 1/4, no_ask := 1/4, combined_cost := 1/2, profit_pct := 1/2,
          yes_size_available := 1000, no_size_available := 1000 } =
      (.execute
          (min (availableSize
            { yes_ask := 1/4, no_ask := 1/4, combined_cost := 1/2, profit_pct := 1/2,
              yes_size_available := 1000, no_size_available := 1000 }) 100)
          (min (availableSize
            { yes_ask := 1/4, no_ask := 1/4, combined_cost := 1/2, profit_pct := 1/2,
              yes_size_available := 1000, no_size_available := 1000 }) 100 * (1/2)),
        2000 - min (availableSize
            { yes_ask := 1/4, no_ask := 1/4, combined_cost := 1/2, profit_pct := 1/2,
              yes_size_available := 1000, no_size_available := 1000 }) 100 * (1/2)) := by
  have h1 : ⌈(22:ℚ)/5⌉ = 5 := by norm_num [Int.ceil_eq_iff]
  have hg : ¬ availableSize
      { yes_ask := (1:ℚ)/4, no_ask := 1/4, combined_cost := 1/2, profit_pct := 1/2,
        yes_size_available := 1000, no_size_available := 1000 } <
      minRequiredSize
      { yes_ask := (1:ℚ)/4, no_ask := 1/4, combined_cost := 1/2, profit_pct := 1/2,
        yes_size_available := 1000, no_size_available := 1000 } := by
    norm_num [availableSize, minRequiredSize, rawAvailable, quantizeDown, quantizeUp,
      LIQUIDITY_SAFETY_MARGIN, minOrderValue, h1]
  refine ⟨hg, onArbitrage_trade_size_cap 100 2000 _ hg ?_⟩
  norm_num [availableSize, minRequiredSize, rawAvailable, quantizeDown, quantizeUp,
    LIQUIDITY_SAFETY_MARGIN, minOrderValue, h1]

/-- C1 counterexample: at cap $100, combined ask 0.50 and 1000×1000 liquidity
the code trades 100 shares, not the `min(available, max_position / combined) =
min(500, 200) = 200` shares the claim's formula yields. -/
theorem onArbitrage_usd_cap_counterexample :
    onArbitrage 100 2000
      { yes_ask := 1/4, no_ask := 1/4, combined_cost := 1/2, profit_pct := 1/2,
        yes_size_available := 1000, no_size_available := 1000 } =
      (.execute 100 50, 1950)
    ∧ availableSize
        { yes_ask := 1/4, no_ask := 1/4, combined_cost := 1/2, profit_pct := 1/2,
          yes_size_available := 1000, no_size_available := 1000 } = 500
    ∧ min ((500:ℚ)) ((100:ℚ) / (1/2)) = 200
    ∧ (100 : ℚ) ≠ 200 := by
  have h1 : ⌈(22:ℚ)/5⌉ = 5 := by norm_num [Int.ceil_eq_iff]
  refine ⟨?_, ?_, ?_, by norm_num⟩
  · norm_num [onArbitrage, availableSize, minRequiredSize, rawAvailable,
      quantizeDown, quantizeUp, LIQUIDITY_SAFETY_MARGIN, minOrderValue, h1]
  · norm_num [availableSize, rawAvailable, quantizeDown, LIQUIDITY_SAFETY_MARGIN]
  · norm_num

/-- C9 (amended): when the executor is invoked, the final trade size is at
least `min_shares`, provided the configured position cap is itself at least
`min_shares`; without that proviso the cap can push the size below the
minimum (see the counterexample). -/
theorem onArbitrage_executes_above_min_shares (maxPosition cachedBalance : ℚ) (a : AlertQ)
    (hc : 0 < a.combined_cost) (hmp : minRequiredSize a ≤ maxPosition)
    (ts rc nb : ℚ)
    (h : onArbitrage maxPosition cachedBalance a = (.execute ts rc, nb)) :
    minRequiredSize a ≤ ts := by
  simp only [onArbitrage] at h
  split at h
  · simp at h
  · next hgate =>
    have hts0 : minRequiredSize a ≤ min (availableSize a) maxPosition :=
      le_min (not_lt.mp hgate) hmp
    split at h
    · split at h
      · next hres =>
        simp only [Prod.mk.injEq, ExecDecision.execute.injEq] at h
        obtain ⟨⟨hts, _⟩, _⟩ := h
        subst hts
        refine le_min hts0 ?_
        obtain ⟨z, hz⟩ := minRequiredSize_isInt a
        have hcb : 0 < cachedBalance :=
          lt_of_lt_of_le (mul_pos (minRequiredSize_pos a) hc) hres
        have hdiv0 : 0 ≤ cachedBalance / a.combined_cost := le_of_lt (div_pos hcb hc)
        have hzx : (z:ℚ) ≤ cachedBalance / a.combined_cost := by
          rw [← hz, le_div_iff₀ hc]
          exact hres
        rw [hz]
        exact le_quantizeDown hdiv0 hzx
      · simp at h
    · simp only [Prod.mk.injEq, ExecDecision.execute.injEq] at h
      obtain ⟨⟨hts, _⟩, _⟩ := h
      exact hts ▸ hts0

/-- C9 witness: asks 0.005/0.005 (min_shares 220), cap 250 ≥ 220, balance
1000: the executor is invoked with 250 shares, at least 220. -/
theorem onArbitrage_executes_above_min_shares_witness :
    (0:ℚ) < (1/100 : ℚ)
    ∧ minRequiredSize
        { yes_ask := 1/200, no_ask := 1/200, combined_cost := 1/100, profit_pct := 99/100,
          yes_size_available := 1000, no_size_available := 1000 } ≤ 250 := by
  have h220 : ⌈(220:ℚ)⌉ = 220 := by norm_num [Int.ceil_eq_iff]
  have hm : minRequiredSize
      { yes_ask := (1:ℚ)/200, no_ask := 1/200, combined_cost := 1/100, profit_pct := 99/100,
        yes_size_available := 1000, no_size_available := 1000 } ≤ 250 := by
    norm_num [minRequiredSize, quantizeUp, minOrderValue, h220]
  refine ⟨by norm_num, ?_⟩
  exact onArbitrage_executes_above_min_shares 250 1000
    { yes_ask := 1/200, no_ask := 1/200, combined_cost := 1/100, profit_pct := 99/100,
      yes_size_available := 1000, no_size_available := 1000 }
    (by norm_num) hm 250 (5/2) (1995/2) (by
      have h220b : ⌈(220:ℚ)⌉ = 220 := by norm_num [Int.ceil_eq_iff]
      norm_num [onArbitrage, availableSize, minRequiredSize, rawAvailable,
        quantizeDown, quantizeUp, LIQUIDITY_SAFETY_MARGIN, minOrderValue, h220b])

/-- C7: after a PARTIAL or FAILED result and after an exception, the new
cached balance is the freshly queried on-chain balance whatever the deducted
cache held — the reserved amount is never credited back — and when the chain
query itself fails the deducted value is retained unchanged (still no
credit-back). -/
theorem reconcile_refreshes_never_restores (deductedBalance chainBalance : ℚ)
    (out : ExecOutcome)
    (h : out = .finished .halfFilled ∨ out = .finished .failedBoth ∨
      out = .exceptionRaised) :
    reconcileAfterExecution deductedBalance out (some chainBalance) = chainBalance
    ∧ reconcileAfterExecution deductedBalance out none = deductedBalance := by
  rcases h with h | h | h <;> subst h <;> exact ⟨rfl, rfl⟩

/-- C7 witness: a PARTIAL outcome with cache 40 and chain balance 7 leaves the
cache at 7 when the query succeeds, and at 40 when it fails. -/
theorem reconcile_refreshes_never_restores_witness :
    reconcileAfterExecution 40 (.finished .halfFilled) (some 7) = 7
    ∧ reconcileAfterExecution 40 (.finished .halfFilled) none = 40 :=
  reconcile_refreshes_never_restores 40 7 (.finished .halfFilled) (Or.inl rfl)

/-- C9 counterexample: asks 0.005/0.005 give `min_shares = 220`, yet at the
default $100 cap the executor is invoked with only 100 shares. -/
theorem onArbitrage_min_shares_counterexample :
    onArbitrage 100 1000
      { yes_ask := 1/200, no_ask := 1/200, combined_cost := 1/100, profit_pct := 99/100,
        yes_size_available := 1000, no_size_available := 1000 } =
      (.execute 100 1, 999)
    ∧ minRequiredSize
        { yes_ask := 1/200, no_ask := 1/200, combined_cost := 1/100, profit_pct := 99/100,
          yes_size_available := 1000, no_size_available := 1000 } = 220
    ∧ (100 : ℚ) < 220 := by
  have h220 : ⌈(220:ℚ)⌉ = 220 := by norm_num [Int.ceil_eq_iff]
  refine ⟨?_, ?_, by norm_num⟩
  · norm_num [onArbitrage, availableSize, minRequiredSize, rawAvailable,
      quantizeDown, quantizeUp, LIQUIDITY_SAFETY_MARGIN, minOrderValue, h220]
  · norm_num [minRequiredSize, quantizeUp, minOrderValue, h220]

/-! ## Claims about the detector -/

lemma durCount_append (l1 l2 : List DetEvent) :
    durCount (l1 ++ l2) = durCount l1 + durCount l2 :=
  List.countP_append _ _ _

lemma alertCount_append (l1 l2 : List DetEvent) :
    alertCount (l1 ++ l2) = alertCount l1 + alertCount l2 :=
  List.countP_append _ _ _

lemma durCount_single_dur (d : ℚ) : durCount [DetEvent.durationWrite d] = 1 := rfl

lemma alertCount_single_dur (d : ℚ) : alertCount [DetEvent.durationWrite d] = 0 := rfl

lemma durCount_fire_insert (fs : ℚ) :
    durCount [DetEvent.callbackFire, DetEvent.alertInsert fs] = 0 := rfl

lemma alertCount_fire_insert (fs : ℚ) :
    alertCount [DetEvent.callbackFire, DetEvent.alertInsert fs] = 1 := rfl

lemma nearMissEvents_durCount (th : ℚ) (p : PricesQ) :
    durCount (nearMissEvents th p) = 0 := by
  unfold nearMissEvents
  cases arbitrageProfit p with
  | none => rfl
  | some pr =>
    dsimp only
    split
    · split
      · split <;> rfl
      · rfl
    · rfl

lemma nearMissEvents_alertCount (th : ℚ) (p : PricesQ) :
    alertCount (nearMissEvents th p) = 0 := by
  unfold nearMissEvents
  cases arbitrageProfit p with
  | none => rfl
  | some pr =>
    dsimp only
    split
    · split
      · split <;> rfl
      · rfl
    · rfl

lemma hasArbitrage_false_iff (th : ℚ) (p : PricesQ) :
    hasArbitrage th p = false ↔
      (arbitrageProfit p = none ∨ ∃ pr, arbitrageProfit p = some pr ∧ pr ≤ th) := by
  unfold hasArbitrage
  cases h : arbitrageProfit p <;> simp [not_lt]

lemma hasArbitrage_some {th : ℚ} {p : PricesQ} (h : hasArbitrage th p = true) :
    ∃ c, combinedAsk p = some c ∧ arbitrageProfit p = some (1 - c) := by
  unfold hasArbitrage arbitrageProfit at *
  cases hc : combinedAsk p with
  | none => rw [hc] at h; simp at h
  | some c => exact ⟨c, rfl, rfl⟩

/-- C3 (amended): per `_check_arbitrage` call, at most one duration write-back
fires, and it fires exactly when an update without arbitrage closes an open
lifetime — closing removes the entry, so at most one duration write per
lifetime; but an alert record is persisted on every firing update (arbitrage
present and the resolution window passes), whether or not a lifetime is
already open, so one lifetime can persist many alert records. -/
theorem checkArbitrage_alert_and_duration_emission
    (threshold : ℚ) (daysOk : Bool) (now : ℚ) (active : Option ℚ) (p : PricesQ) :
    durCount (checkArbitrage threshold daysOk now active p).2 ≤ 1
    ∧ (durCount (checkArbitrage threshold daysOk now active p).2 = 1 ↔
        active.isSome = true ∧ hasArbitrage threshold p = false)
    ∧ (active.isSome = true → hasArbitrage threshold p = false →
        (checkArbitrage threshold daysOk now active p).1 = none)
    ∧ (active = none → durCount (checkArbitrage threshold daysOk now active p).2 = 0)
    ∧ (alertCount (checkArbitrage threshold daysOk now active p).2 =
        if hasArbitrage threshold p = true ∧ daysOk = true then 1 else 0) := by
  have hnmd := nearMissEvents_durCount threshold p
  have hnma := nearMissEvents_alertCount threshold p
  simp only [checkArbitrage]
  cases harb : hasArbitrage threshold p with
  | false =>
    cases active with
    | some fs =>
      simp [durCount_append, alertCount_append, hnmd, hnma, durCount_single_dur,
        alertCount_single_dur]
    | none =>
      simp [hnmd, hnma]
  | true =>
    cases daysOk with
    | false =>
      simp [hnmd, hnma]
    | true =>
      obtain ⟨c, hcomb, hprof⟩ := hasArbitrage_some harb
      rw [hcomb, hprof]
      cases active with
      | none =>
        simp [durCount_append, alertCount_append, hnmd, hnma, durCount_fire_insert,
          alertCount_fire_insert]
      | some fs =>
        simp [durCount_append, alertCount_append, hnmd, hnma, durCount_fire_insert,
          alertCount_fire_insert]

/-- C3 witness: on a no-arbitrage update with an open lifetime the entry is
closed, and on a firing update with no open lifetime no duration write
occurs. -/
theorem checkArbitrage_alert_and_duration_emission_witness :
    (checkArbitrage (1/100) true 7 (some 5)
        { yes_best_bid := none, yes_best_ask := some (1/2),
          no_best_bid := none, no_best_ask := some (99/200),
          yes_best_ask_size := some 100, no_best_ask_size := some 100 }).1 = none
    ∧ durCount (checkArbitrage (1/100) true 2 none
        { yes_best_bid := none, yes_best_ask := some (9/20),
          no_best_bid := none, no_best_ask := some (1/2),
          yes_best_ask_size := some 100, no_best_ask_size := some 100 }).2 = 0 :=
  ⟨(checkArbitrage_alert_and_duration_emission (1/100) true 7 (some 5)
      { yes_best_bid := none, yes_best_ask := some (1/2),
        no_best_bid := none, no_best_ask := some (99/200),
        yes_best_ask_size := some 100, no_best_ask_size := some 100 }).2.2.1
    rfl
    (by norm_num [hasArbitrage, arbitrageProfit, combinedAsk]),
   (checkArbitrage_alert_and_duration_emission (1/100) true 2 none
      { yes_best_bid := none, yes_best_ask := some (9/20),
        no_best_bid := none, no_best_ask := some (1/2),
        yes_best_ask_size := some 100, no_best_ask_size := some 100 }).2.2.2.1
    rfl⟩

/-- C3 counterexample: two consecutive firing updates on the same market
persist two alert records within one never-closed lifetime, refuting "at most
one alert record per opportunity lifetime". -/
theorem checkArbitrage_repeated_alert_counterexample :
    checkArbitrage (1/100) true 1 none
        { yes_best_bid := none, yes_best_ask := some (9/20),
          no_best_bid := none, no_best_ask := some (1/2),
          yes_best_ask_size := some 100, no_best_ask_size := some 100 } =
      (some 1, [.callbackFire, .alertInsert 1])
    ∧ checkArbitrage (1/100) true 2 (some 1)
        { yes_best_bid := none, yes_best_ask := some (9/20),
          no_best_bid := none, no_best_ask := some (1/2),
          yes_best_ask_size := some 100, no_best_ask_size := some 100 } =
      (some 1, [.callbackFire, .alertInsert 1])
    ∧ alertCount [DetEvent.callbackFire, DetEvent.alertInsert 1]
        + alertCount [DetEvent.callbackFire, DetEvent.alertInsert 1] = 2
    ∧ durCount [DetEvent.callbackFire, DetEvent.alertInsert 1] = 0 := by
  refine ⟨?_, ?_, rfl, rfl⟩ <;>
    norm_num [checkArbitrage, nearMissEvents, hasArbitrage, arbitrageProfit, combinedAsk]

/-- C4 (amended): the detector closes an open lifetime exactly when
`has_arbitrage` is false, i.e. when the profit is missing or at most the
threshold — not only when the profit is ≤ 0; in particular the near-miss band
`0 < profit ≤ threshold` also closes an open lifetime rather than leaving it
open (the near-miss block records its trace and falls through to the close
branch). -/
theorem checkArbitrage_close_iff_no_arbitrage
    (threshold : ℚ) (daysOk : Bool) (now : ℚ) (active : Option ℚ) (p : PricesQ) :
    (((checkArbitrage threshold daysOk now active p).1 = none
        ∧ durCount (checkArbitrage threshold daysOk now active p).2 = 1) ↔
      (active.isSome = true ∧ hasArbitrage threshold p = false))
    ∧ (hasArbitrage threshold p = false ↔
        (arbitrageProfit p = none ∨ ∃ pr, arbitrageProfit p = some pr ∧ pr ≤ threshold))
    ∧ (∀ firstSeen, active = some firstSeen → hasArbitrage threshold p = false →
        checkArbitrage threshold daysOk now active p =
          (none, nearMissEvents threshold p ++ [.durationWrite (now - firstSeen)])) := by
  refine ⟨?_, hasArbitrage_false_iff threshold p, ?_⟩
  · have hnmd := nearMissEvents_durCount threshold p
    simp only [checkArbitrage]
    cases harb : hasArbitrage threshold p with
    | false =>
      cases active with
      | some fs => simp [durCount_append, hnmd, durCount_single_dur]
      | none => simp [hnmd]
    | true =>
      cases daysOk with
      | false => simp [hnmd]
      | true =>
        obtain ⟨c, hcomb, hprof⟩ := hasArbitrage_some harb
        rw [hcomb, hprof]
        cases active with
        | none => simp [durCount_append, hnmd, durCount_fire_insert]
        | some fs => simp [durCount_append, hnmd, durCount_fire_insert]
  · intro firstSeen hact harb
    subst hact
    simp only [checkArbitrage]
    rw [harb]
    simp

/-- C4 witness: an update with an open lifetime and no arbitrage closes it and
schedules the duration write-back. -/
theorem checkArbitrage_close_iff_no_arbitrage_witness :
    checkArbitrage (1/100) true 7 (some 5)
        { yes_best_bid := none, yes_best_ask := some (11/20),
          no_best_bid := none, no_best_ask := some (1/2),
          yes_best_ask_size := some 100, no_best_ask_size := some 100 } =
      (none, nearMissEvents (1/100)
          { yes_best_bid := none, yes_best_ask := some (11/20),
            no_best_bid := none, no_best_ask := some (1/2),
            yes_best_ask_size := some 100, no_best_ask_size := some 100 } ++
        [.durationWrite (7 - 5)]) :=
  (checkArbitrage_close_iff_no_arbitrage (1/100) true 7 (some 5)
      { yes_best_bid := none, yes_best_ask := some (11/20),
        no_best_bid := none, no_best_ask := some (1/2),
        yes_best_ask_size := some 100, no_best_ask_size := some 100 }).2.2
    5 rfl
    (by norm_num [hasArbitrage, arbitrageProfit, combinedAsk])

/-- C4 counterexample: a price update giving profit 0.005, strictly positive
and at most the 0.01 threshold, closes the open lifetime (entry deleted,
duration written) instead of leaving it open as the claim's near-miss branch
asserts. -/
theorem checkArbitrage_nearmiss_closes_counterexample :
    arbitrageProfit
        { yes_best_bid := none, yes_best_ask := some (1/2),
          no_best_bid := none, no_best_ask := some (99/200),
          yes_best_ask_size := some 100, no_best_ask_size := some 100 } =
      some (1/200)
    ∧ ((0:ℚ) < 1/200 ∧ (1/200:ℚ) ≤ 1/100)
    ∧ checkArbitrage (1/100) true 7 (some 5)
        { yes_best_bid := none, yes_best_ask := some (1/2),
          no_best_bid := none, no_best_ask := some (99/200),
          yes_best_ask_size := some 100, no_best_ask_size := some 100 } =
      (none, [.durationWrite 2]) := by
  refine ⟨by norm_num [arbitrageProfit, combinedAsk], by norm_num, ?_⟩
  norm_num [checkArbitrage, nearMissEvents, hasArbitrage, arbitrageProfit, combinedAsk]

/-! ## Claim about the price store -/

/-- C10: the `_update_prices` frame.  A token id absent from
`_token_to_market` leaves the whole state unchanged; for a mapped token, the
matching side's best bid and best ask are overwritten unconditionally (also
with null), while a null carried ask size leaves the stored
`ask_size_at_best` unchanged. -/
theorem updatePrices_frame (s : ScannerState) (tokenId : String)
    (bestBid bestAsk : Option ℚ) :
    (s.tokenToMarket tokenId = none →
      ∀ sz, updatePrices s tokenId bestBid bestAsk sz = s)
    ∧ (∀ marketId market prices,
        s.tokenToMarket tokenId = some marketId → marketId ≠ "" →
        s.markets marketId = some market → s.marketPrices marketId = some prices →
        tokenId = market.yesTokenId →
        (updatePrices s tokenId bestBid bestAsk none).marketPrices marketId =
          some { prices with yes_best_bid := bestBid, yes_best_ask := bestAsk })
    ∧ (∀ marketId market prices,
        s.tokenToMarket tokenId = some marketId → marketId ≠ "" →
        s.markets marketId = some market → s.marketPrices marketId = some prices →
        tokenId ≠ market.yesTokenId → tokenId = market.noTokenId →
        (updatePrices s tokenId bestBid bestAsk none).marketPrices marketId =
          some { prices with no_best_bid := bestBid, no_best_ask := bestAsk }) := by
  refine ⟨?_, ?_, ?_⟩
  · intro h sz
    simp only [updatePrices, h]
  · intro marketId market prices h1 h2 h3 h4 h5
    simp only [updatePrices, h1, h3, h4, if_neg h2, if_pos h5]
    simp
  · intro marketId market prices h1 h2 h3 h4 h5 h6
    simp only [updatePrices, h1, h3, h4, if_neg h2, if_neg h5, if_pos h6]
    simp

/-- A concrete one-market scanner state for exercising `updatePrices`. -/
def demoPrices : PricesQ :=
  { yes_best_bid := some (3/10), yes_best_ask := some (2/5),
    no_best_bid := some (1/2), no_best_ask := some (3/5),
    yes_best_ask_size := some 70, no_best_ask_size := some 80 }

/-- A concrete market for the demo scanner state. -/
def demoMarket : MarketQ := { id := "m1", yesTokenId := "y1", noTokenId := "n1" }

/-- The demo scanner state: one market `m1` with tokens `y1` and `n1`. -/
def demoState : ScannerState :=
  { tokenToMarket := fun t => if t = "y1" ∨ t = "n1" then some "m1" else none,
    markets := fun k => if k = "m1" then some demoMarket else none,
    marketPrices := fun k => if k = "m1" then some demoPrices else none }

/-- C10 witness: an unknown token id leaves the demo state untouched, and a
YES-side update with null size and null bid overwrites bid/ask but keeps the
stored ask size 70. -/
theorem updatePrices_frame_witness :
    updatePrices demoState "zz" (some 1) none (some 2) = demoState
    ∧ (updatePrices demoState "y1" none (some (7/10)) none).marketPrices "m1" =
        some { demoPrices with yes_best_bid := none, yes_best_ask := some (7/10) } :=
  ⟨(updatePrices_frame demoState "zz" (some 1) none).1 (by simp [demoState]) (some 2),
   (updatePrices_frame demoState "y1" none (some (7/10))).2.1 "m1" demoMarket demoPrices
     (by simp [demoState]) (by simp) (by simp [demoState]) (by simp [demoState])
     (by simp [demoMarket])⟩

/-! ## Claim about subscription sharding -/

lemma length_collectTokenIds (ms : List MarketQ) :
    (collectTokenIds ms).length = 2 * ms.length := by
  induction ms with
  | nil => rfl
  | cons m ms ih =>
    have hstep : collectTokenIds (m :: ms) =
        m.yesTokenId :: m.noTokenId :: collectTokenIds ms := rfl
    rw [hstep]
    simp only [List.length_cons, ih]
    omega

lemma wsShard_succ (l : List String) (i : ℕ) :
    wsShard l (i + 1) = wsShard (l.drop MAX_ASSETS_PER_WS) i := by
  rw [wsShard, wsShard, List.drop_drop,
    show MAX_ASSETS_PER_WS + i * MAX_ASSETS_PER_WS = (i + 1) * MAX_ASSETS_PER_WS from by ring]

lemma shards_flatten (N : ℕ) : ∀ l : List String,
    ((List.range N).map (wsShard l)).flatten = l.take (MAX_ASSETS_PER_WS * N) := by
  induction N with
  | zero => intro l; simp
  | succ n ih =>
    intro l
    rw [List.range_succ_eq_map]
    simp only [List.map_cons, List.map_map, List.flatten_cons]
    have h0 : wsShard l 0 = l.take MAX_ASSETS_PER_WS := by simp [wsShard]
    have hs : (List.range n).map (wsShard l ∘ Nat.succ) =
        (List.range n).map (wsShard (l.drop MAX_ASSETS_PER_WS)) :=
      List.map_congr_left fun i _ => by
        simp only [Function.comp_apply, wsShard_succ]
    rw [h0, hs, ih,
      show MAX_ASSETS_PER_WS * (n + 1) = MAX_ASSETS_PER_WS + MAX_ASSETS_PER_WS * n from by ring,
      List.take_add]

lemma sum_shard_lengths (N : ℕ) (l : List String) :
    ((List.range N).map fun i => (wsShard l i).length).sum =
      min l.length (MAX_ASSETS_PER_WS * N) := by
  have h := congrArg List.length (shards_flatten N l)
  rw [List.length_flatten, List.map_map, List.length_take] at h
  simpa [Function.comp, Nat.min_comm] using h

lemma subscribe_sum_aux (l : List String) (is : List ℕ) :
    ((is.filterMap fun i =>
        if (wsShard l i).isEmpty then none else some (i, wsShard l i)).map
      fun b => b.2.length).sum =
    (is.map fun i => (wsShard l i).length).sum := by
  induction is with
  | nil => rfl
  | cons i is ih =>
    by_cases h : (wsShard l i).isEmpty
    · rw [List.filterMap_cons_none (by rw [if_pos h]), List.map_cons, List.sum_cons, ih,
        List.length_eq_zero.mpr (List.isEmpty_iff.mp h)]
      omega
    · rw [List.filterMap_cons_some (by rw [if_neg h]), List.map_cons, List.sum_cons,
        List.map_cons, List.sum_cons, ih]

lemma subscribe_sum (l : List String) (N : ℕ) :
    ((subscribeToMarkets l N).map fun b => b.2.length).sum =
      ((List.range N).map fun i => (wsShard l i).length).sum := by
  simp only [subscribeToMarkets]
  exact subscribe_sum_aux l (List.range N)

lemma subscribe_batches_nonempty (l : List String) (N : ℕ) :
    ∀ b ∈ subscribeToMarkets l N, b.2 ≠ [] := by
  intro b hb
  simp only [subscribeToMarkets, List.mem_filterMap] at hb
  obtain ⟨i, _, hi⟩ := hb
  split at hi
  · exact absurd hi (by simp)
  · next h =>
    cases hi
    simpa [List.isEmpty_iff] using h

lemma mem_unique_shard (l : List String) (N : ℕ) (hnd : l.Nodup)
    (hle : l.length ≤ MAX_ASSETS_PER_WS * N) :
    ∀ t ∈ l, ∃! i, i < N ∧ t ∈ wsShard l i := by
  have hflat : ((List.range N).map (wsShard l)).flatten = l := by
    rw [shards_flatten, List.take_of_length_le hle]
  have hnodupF : (((List.range N).map (wsShard l)).flatten).Nodup := by
    rw [hflat]; exact hnd
  have hpair : List.Pairwise (fun i j => List.Disjoint (wsShard l i) (wsShard l j))
      (List.range N) :=
    List.pairwise_map.mp (List.nodup_flatten.mp hnodupF).2
  have hpair' : ∀ i j, i < j → j < N → List.Disjoint (wsShard l i) (wsShard l j) := by
    intro i j hij hjN
    have hiN : i < N := lt_trans hij hjN
    have := List.pairwise_iff_get.mp hpair ⟨i, by simpa using hiN⟩ ⟨j, by simpa using hjN⟩
      (by simpa using hij)
    simpa using this
  intro t ht
  have htF : t ∈ ((List.range N).map (wsShard l)).flatten := by
    rw [hflat]; exact ht
  rw [List.mem_flatten] at htF
  obtain ⟨sh, hsh, htsh⟩ := htF
  rw [List.mem_map] at hsh
  obtain ⟨i, hiN, rfl⟩ := hsh
  rw [List.mem_range] at hiN
  refine ⟨i, ⟨hiN, htsh⟩, ?_⟩
  rintro j ⟨hjN, htj⟩
  by_contra hne
  rcases Nat.lt_or_ge j i with hji | hij
  · exact hpair' j i hji hiN htj htsh
  · exact hpair' i j (lt_of_le_of_ne hij fun h => hne h.symm) hjN htsh htj

/-- C8: with N connections and M loaded markets (the loader caps M at 250·N),
subscribing subscribes exactly `min(2M, N·500)` assets; the shards are the
consecutive 500-token slices of the ordered token list, every token lies in
exactly one shard, and a subscription is issued only for a non-empty slice. -/
theorem subscribeToMarkets_shards (markets : List MarketQ) (N : ℕ)
    (hM : markets.length ≤ maxMarkets N)
    (hnd : (collectTokenIds markets).Nodup) :
    ((subscribeToMarkets (collectTokenIds markets) N).map fun b => b.2.length).sum =
        min (2 * markets.length) (N * MAX_ASSETS_PER_WS)
    ∧ (∀ b ∈ subscribeToMarkets (collectTokenIds markets) N, b.2 ≠ [])
    ∧ ((List.range N).map (wsShard (collectTokenIds markets))).flatten =
        (collectTokenIds markets).take (MAX_ASSETS_PER_WS * N)
    ∧ (∀ t ∈ collectTokenIds markets,
        ∃! i, i < N ∧ t ∈ wsShard (collectTokenIds markets) i) := by
  have hlen := length_collectTokenIds markets
  have hle : (collectTokenIds markets).length ≤ MAX_ASSETS_PER_WS * N := by
    rw [hlen]
    rw [maxMarkets, MAX_ASSETS_PER_WS] at hM
    rw [MAX_ASSETS_PER_WS]
    omega
  refine ⟨?_, subscribe_batches_nonempty _ _, shards_flatten N _,
    mem_unique_shard _ _ hnd hle⟩
  rw [subscribe_sum, sum_shard_lengths, hlen, Nat.mul_comm N MAX_ASSETS_PER_WS]

/-- C8 witness: one market and one connection: exactly
min(2·1, 1·500) = 2 assets are subscribed. -/
theorem subscribeToMarkets_shards_witness :
    ([({ id := "m1", yesTokenId := "y1", noTokenId := "n1" } : MarketQ)].length ≤ maxMarkets 1)
    ∧ ((subscribeToMarkets
          (collectTokenIds [({ id := "m1", yesTokenId := "y1", noTokenId := "n1" } : MarketQ)])
          1).map fun b => b.2.length).sum =
        min (2 * [({ id := "m1", yesTokenId := "y1", noTokenId := "n1" } : MarketQ)].length)
          (1 * MAX_ASSETS_PER_WS) :=
  ⟨by simp [maxMarkets, MAX_ASSETS_PER_WS],
   (subscribeToMarkets_shards [{ id := "m1", yesTokenId := "y1", noTokenId := "n1" }] 1
      (by simp [maxMarkets, MAX_ASSETS_PER_WS])
      (by simp [collectTokenIds])).1⟩

end Rarb
